import Mathlib

/-!
Shallow embedding of the Coldsweat entry-state and view-materialization engine,
translated from `src/coldsweat/models.py` (data model) and
`src/coldsweat/frontend.py` (queries, mark operations, bulk mark, pagination).

Modelling conventions:
* Database tables are Lean lists of records; primary keys and foreign keys are
  `Nat` ids.  The unique indexes declared in `models.py` (entry/feed/icon/group
  primary keys, the `(user, group, feed)` index on `subscriptions`, the
  `(user, entry)` indexes on `read`/`saved`) are not baked into the state type;
  theorems take them as `Nodup` hypotheses where they matter.
* `datetime` values are modelled as `Int` instants; nullable columns as
  `Option`.  A SQL comparison `NULL < x` is not satisfied, which the embedding
  makes explicit (`checked_before`).
* Peewee query chains are translated join-by-join: `_q` builds the
  Entry → Feed → Icon, Feed → Subscription inner-join rows, `.where` becomes
  `List.filter`, `.distinct()` becomes `List.dedup`, `.offset(o).limit(n)`
  becomes `List.drop o` / `List.take n`.
* Exceptions absorbed by the source (`IntegrityError` on duplicate insert,
  zero-row deletes) make the corresponding operations total functions;
  exceptions that escape a handler are surfaced as an `Err` value.
* Columns never read by the code under study (`read_on`, `saved_on`,
  `Icon.data` contents, user credentials) are either kept as plain data or
  omitted; rendering, sessions and the fetcher are out of scope.
-/

namespace Coldsweat

/-- Group row (`models.py`, class Group): id plus unique title. -/
structure Group where
  id : Nat
  title : String
deriving DecidableEq, Repr

/-- Icon row (`models.py`, class Icon). -/
structure Icon where
  id : Nat
  data : String
deriving DecidableEq, Repr

/-- Feed row (`models.py`, class Feed). `last_checked_on` is nullable
(`DateTimeField(null=True)`). -/
structure Feed where
  id : Nat
  is_enabled : Bool
  icon : Nat
  self_link : String
  error_count : Nat
  title : Option String
  alternate_link : Option String
  etag : Option String
  last_updated_on : Option Int
  last_checked_on : Option Int
  last_status : Option Nat
deriving DecidableEq, Repr

/-- Entry row (`models.py`, class Entry): `feed` is the owning feed id,
`last_updated_on` is non-nullable. -/
structure Entry where
  id : Nat
  guid : String
  feed : Nat
  title : String
  content_type : String
  content : String
  last_updated_on : Int
  is_local : Bool
  author : Option String
  link : Option String
deriving DecidableEq, Repr

/-- Subscription row (`models.py`, class Subscription); the triple
`(user, group, feed)` carries a unique index. -/
structure Subscription where
  id : Nat
  user : Nat
  group : Nat
  feed : Nat
deriving DecidableEq, Repr

/-- Read row (`models.py`, class Read): unique on `(user, entry)`; the
`read_on` timestamp is never consulted by the code under study and is
omitted. -/
structure Read where
  user : Nat
  entry : Nat
deriving DecidableEq, Repr

/-- Saved row (`models.py`, class Saved): unique on `(user, entry)`. -/
structure Saved where
  user : Nat
  entry : Nat
deriving DecidableEq, Repr

/-- Database state: the tables the claims touch.  Users are identified by
bare ids (the remaining User columns are credential data, out of
scope). -/
structure DB where
  groups : List Group
  icons : List Icon
  feeds : List Feed
  entries : List Entry
  subscriptions : List Subscription
  read : List Read
  saved : List Saved
deriving DecidableEq, Repr

/-- Errors surfaced to the web layer (`HTTPNotFound`, `HTTPBadRequest`). -/
inductive Err where
  | notFound
  | badRequest
deriving DecidableEq, Repr

/-- Membership test `Entry.id << Read.select(Read.entry).where(Read.user ==
user)` used by the unread queries and the bulk mark query. -/
def is_read (db : DB) (user eid : Nat) : Bool :=
  db.read.any (fun r => r.user == user && r.entry == eid)

/-- Membership test against the Saved relation, as in `get_saved_entries`. -/
def is_saved (db : DB) (user eid : Nat) : Bool :=
  db.saved.any (fun r => r.user == user && r.entry == eid)

/-- One row of the join built by `_q` (frontend.py):
`Entry.select(...).join(Feed).join(Icon).switch(Feed).join(Subscription)`. -/
structure QRow where
  entry : Entry
  feed : Feed
  icon : Icon
  sub : Subscription
deriving DecidableEq, Repr

/-- Join rows contributed by a single entry: its feed row, the icon row of that feed, and every subscription row pointing at that feed. -/
def qRowsFor (db : DB) (e : Entry) : List QRow :=
  (db.feeds.filter fun f => f.id == e.feed).flatMap fun f =>
    (db.icons.filter fun i => i.id == f.icon).flatMap fun i =>
      (db.subscriptions.filter fun s => s.feed == f.id).map fun s =>
        ⟨e, f, i, s⟩

/-- The inner-join row set of `_q`: entries matched with their feed, the
icon of the feed, and every subscription row pointing at that feed. -/
def qRows (db : DB) : List QRow :=
  db.entries.flatMap (qRowsFor db)

/-- Query `get_unread_entries` (frontend.py): subscription belongs to the
user, entry not in the Read set of the user, then `.distinct()`. -/
def get_unread_entries (db : DB) (user : Nat) : List Entry :=
  (((qRows db).filter fun r =>
      r.sub.user == user && !(is_read db user r.entry.id)).map QRow.entry).dedup

/-- Query `get_saved_entries` (frontend.py): subscription belongs to the
user, entry in the Saved set of the user, then `.distinct()`. -/
def get_saved_entries (db : DB) (user : Nat) : List Entry :=
  (((qRows db).filter fun r =>
      r.sub.user == user && is_saved db user r.entry.id).map QRow.entry).dedup

/-- Query `get_all_entries` (frontend.py): subscription belongs to the user,
then `.distinct()`. -/
def get_all_entries (db : DB) (user : Nat) : List Entry :=
  (((qRows db).filter fun r => r.sub.user == user).map QRow.entry).dedup

/-- Query `get_group_entries` (frontend.py): subscription belongs to the user
and to the given group.  Note: the source applies no `.distinct()` here. -/
def get_group_entries (db : DB) (user : Nat) (group : Group) : List Entry :=
  ((qRows db).filter fun r =>
      r.sub.user == user && r.sub.group == group.id).map QRow.entry

/-- Query `get_feed_entries` (frontend.py): subscription belongs to the user
and points at the given feed, then `.distinct()`. -/
def get_feed_entries (db : DB) (user : Nat) (feed : Feed) : List Entry :=
  (((qRows db).filter fun r =>
      r.sub.user == user && r.sub.feed == feed.id).map QRow.entry).dedup

/-- Lookup `Group.get(Group.id == group_id)`: the first row with the id, or
none (peewee raises `Group.DoesNotExist`). -/
def getGroup (db : DB) (gid : Nat) : Option Group :=
  db.groups.find? fun g => g.id == gid

/-- Lookup `Feed.get(Feed.id == feed_id)`. -/
def getFeed (db : DB) (fid : Nat) : Option Feed :=
  db.feeds.find? fun f => f.id == fid

/-- Lookup `Entry.get(Entry.id == entry_id)`. -/
def getEntry (db : DB) (eid : Nat) : Option Entry :=
  db.entries.find? fun e => e.id == eid

/-- The filter selector decoded from `request.GET` by
`_make_view_variables`: `saved`, `group=<id>`, `feed=<id>`, `all`, with
unread as the default branch. -/
inductive Filter where
  | saved
  | group (gid : Nat)
  | feed (fid : Nat)
  | all
  | unread
deriving DecidableEq, Repr

/-- Count used by `_make_view_variables` for the distinct queries:
`get_X_entries(user, Entry.id).count()`, i.e. the number of distinct entry
ids matching the predicate. -/
def countDistinctIds (l : List Entry) : Nat :=
  ((l.map Entry.id).dedup).length

/-- Handler helper `FrontendApp._make_view_variables` (frontend.py), reduced to the data the
claims consume: the composed query `q` and the total match `count`.

Modelled from the spec: the group and feed branches of frontend.py call
`Group.get` / `Feed.get` without a local handler, so a missing id raises
`DoesNotExist` out of the handler; the dispatch layer that receives it lives
in `app.py`, which is not part of the sources under study.  Following the
spec (§7: referenced Group/Feed id does not exist → `NotFound`), that escape
is modelled as `Err.notFound`. -/
def make_view_variables (db : DB) (user : Nat) : Filter → Except Err (List Entry × Nat)
  | .saved => .ok (get_saved_entries db user, countDistinctIds (get_saved_entries db user))
  | .group gid =>
      match getGroup db gid with
      | none => .error .notFound
      | some g => .ok (get_group_entries db user g, (get_group_entries db user g).length)
  | .feed fid =>
      match getFeed db fid with
      | none => .error .notFound
      | some f => .ok (get_feed_entries db user f, countDistinctIds (get_feed_entries db user f))
  | .all => .ok (get_all_entries db user, countDistinctIds (get_all_entries db user))
  | .unread => .ok (get_unread_entries db user, countDistinctIds (get_unread_entries db user))

/-- Page size `ENTRIES_PER_PAGE` (frontend.py). -/
def ENTRIES_PER_PAGE : Nat := 30

/-- Insertion step for ordering entries by `last_updated_on` descending
(`order_by(Entry.last_updated_on.desc())`). -/
def insertByUpdatedDesc (e : Entry) : List Entry → List Entry
  | [] => [e]
  | x :: xs =>
      if x.last_updated_on ≤ e.last_updated_on then e :: x :: xs
      else x :: insertByUpdatedDesc e xs

/-- Deterministic model of the SQL `ORDER BY last_updated_on DESC`. -/
def orderByUpdatedDesc : List Entry → List Entry
  | [] => []
  | x :: xs => insertByUpdatedDesc x (orderByUpdatedDesc xs)

/-- Handler `FrontendApp.entry_list` (frontend.py): build the view, order it, apply
`offset(offset).limit(ENTRIES_PER_PAGE)`, and report the next offset
`offset + ENTRIES_PER_PAGE` placed in the template namespace. -/
def entry_list (db : DB) (user : Nat) (filt : Filter) (offset : Nat) :
    Except Err (List Entry × Nat × Nat) :=
  match make_view_variables db user filt with
  | .error e => .error e
  | .ok (q, count) =>
      .ok (((orderByUpdatedDesc q).drop offset).take ENTRIES_PER_PAGE,
        count, offset + ENTRIES_PER_PAGE)

/-- Status argument of `FrontendApp._mark_entry`. -/
inductive Status where
  | read
  | unread
  | saved
  | unsaved
deriving DecidableEq, Repr

/-- Operation `FrontendApp._mark_entry` (frontend.py).  `Read.create` / `Saved.create`
raising `IntegrityError` on a duplicate `(user, entry)` pair, and deletes
affecting zero rows, are absorbed in the source (logged and ignored), so the
operation is a total function on the state. -/
def mark_entry (db : DB) (user eid : Nat) : Status → DB
  | .read =>
      if is_read db user eid then db
      else { db with read := db.read ++ [⟨user, eid⟩] }
  | .unread =>
      { db with read := db.read.filter fun r => !(r.user == user && r.entry == eid) }
  | .saved =>
      if is_saved db user eid then db
      else { db with saved := db.saved ++ [⟨user, eid⟩] }
  | .unsaved =>
      { db with saved := db.saved.filter fun r => !(r.user == user && r.entry == eid) }

/-- SQL predicate `Feed.last_checked_on < before`: a NULL `last_checked_on`
never satisfies the comparison. -/
def checked_before (f : Feed) (before : Int) : Bool :=
  match f.last_checked_on with
  | some t => t < before
  | none => false

/-- One row of the bulk-mark join
`Entry.select().join(Feed).join(Subscription)` (frontend.py,
`entry_list_mark_post`); this join has no Icon leg and no `.distinct()`. -/
structure BulkRow where
  entry : Entry
  feed : Feed
  sub : Subscription
deriving DecidableEq, Repr

/-- The inner-join row set of the bulk-mark query. -/
def bulkRows (db : DB) : List BulkRow :=
  db.entries.flatMap fun e =>
    (db.feeds.filter fun f => f.id == e.feed).flatMap fun f =>
      (db.subscriptions.filter fun s => s.feed == f.id).map fun s => ⟨e, f, s⟩

/-- Candidate entries of the bulk mark-all-read query: reachable through the
subscriptions of the user, not already read by the user, and owned by a feed with
`last_checked_on < before`. -/
def bulkCandidates (db : DB) (user : Nat) (before : Int) : List Entry :=
  ((bulkRows db).filter fun r =>
      r.sub.user == user && !(is_read db user r.entry.id)
        && checked_before r.feed before).map BulkRow.entry

/-- The insert loop of `entry_list_mark_post`: one `Read.create` per
candidate row, with `IntegrityError` (the pair already present) swallowed
and the loop continuing. -/
def markAllRead (db : DB) (user : Nat) (before : Int) : DB :=
  (bulkCandidates db user before).foldl
    (fun d e =>
      if is_read d user e.id then d
      else { d with read := d.read ++ [⟨user, e.id⟩] }) db

/-- Handler `FrontendApp.entry_list_mark_post` (frontend.py): parse the
before field of the POST body as an integer — a missing key or a value `int()` rejects
raises `HTTPBadRequest` before any row is written — then run the insert
loop in a transaction.  Returns the resulting state together with the error,
if any. -/
def entry_list_mark_post (db : DB) (user : Nat) (beforeParam : Option String) :
    DB × Option Err :=
  match beforeParam with
  | none => (db, some .badRequest)
  | some s =>
      match s.toInt? with
      | none => (db, some .badRequest)
      | some before => (markAllRead db user before, none)

/-- Handler `FrontendApp.entry` (frontend.py), the GET handler for a single entry:
look the entry up (404 when absent), then mark it read for the current user
before rendering.  Rendering is out of scope; the state effect and the error
are kept. -/
def entry_view (db : DB) (user eid : Nat) : DB × Option Err :=
  match getEntry db eid with
  | none => (db, some .notFound)
  | some e => (mark_entry db user e.id .read, none)

/-- Reachability of an entry row through the subscriptions of a user, exactly as
the `_q` join sees it: a matching feed row, an icon row for that feed, and a
subscription row of the user pointing at the feed. -/
def reachable (db : DB) (user : Nat) (e : Entry) : Bool :=
  db.feeds.any fun f =>
    f.id == e.feed &&
      ((db.icons.any fun i => i.id == f.icon) &&
        (db.subscriptions.any fun s => s.feed == f.id && s.user == user))

/-- Candidate predicate of the bulk-mark query, stated pointwise: some entry
row with this id is reachable through the subscriptions of the user (Feed →
Subscription join, no icon leg), unread, and its feed was last checked
before the cutoff. -/
def isBulkCandidate (db : DB) (user : Nat) (before : Int) (eid : Nat) : Prop :=
  ∃ e ∈ db.entries, e.id = eid ∧
    ∃ f ∈ db.feeds, f.id = e.feed ∧
      (∃ s ∈ db.subscriptions, s.feed = f.id ∧ s.user = user) ∧
      is_read db user eid = false ∧ checked_before f before = true

/-- Well-formedness mirrored from the unique indexes in `models.py`: primary
keys of entries, feeds and icons, and the unique `(user, group, feed)` index
on subscriptions. -/
def DB.WF (db : DB) : Prop :=
  (db.entries.map Entry.id).Nodup ∧
    (db.feeds.map Feed.id).Nodup ∧
    (db.icons.map Icon.id).Nodup ∧
    (db.subscriptions.map fun s => (s.user, s.group, s.feed)).Nodup

instance (db : DB) : Decidable db.WF := by
  unfold DB.WF
  infer_instance

/-- Entry 1 of the example database: unread, on feed 1. -/
def entryOne : Entry := ⟨1, "guid1", 1, "t1", "text/html", "c1", 10, false, none, none⟩

/-- Entry 3 of the example database: unread, on the never-checked feed 2. -/
def entryThree : Entry := ⟨3, "guid3", 2, "t3", "text/html", "c3", 30, false, none, none⟩

/-- Feed 2 of the example database, whose `last_checked_on` is NULL. -/
def feedTwo : Feed := ⟨2, true, 1, "http://b/feed", 0, some "B", none, none, none, none, none⟩

/-- Concrete database used to exercise the theorems: user 1 subscribes to
feed 1 under two distinct groups and to feed 2 under one, feed 3 has no
subscription, feed 2 has never been checked, and entry 2 is already read. -/
def dbExample : DB :=
  { groups := [⟨1, "news"⟩, ⟨2, "tech"⟩]
    icons := [⟨1, "data:"⟩]
    feeds :=
      [⟨1, true, 1, "http://a/feed", 0, some "A", none, none, none, some 50, some 200⟩,
       feedTwo,
       ⟨3, true, 1, "http://c/feed", 0, some "C", none, none, none, some 80, some 200⟩]
    entries :=
      [entryOne,
       ⟨2, "guid2", 1, "t2", "text/html", "c2", 20, false, none, none⟩,
       entryThree,
       ⟨4, "guid4", 3, "t4", "text/html", "c4", 40, false, none, none⟩]
    subscriptions := [⟨1, 1, 1, 1⟩, ⟨2, 1, 1, 2⟩, ⟨3, 1, 2, 1⟩]
    read := [⟨1, 2⟩]
    saved := [] }

/-- Concrete database with 45 unread entries on a single subscribed feed,
used to exercise the pagination theorem. -/
def db45 : DB :=
  { groups := [⟨1, "news"⟩]
    icons := [⟨1, "data:"⟩]
    feeds := [⟨1, true, 1, "http://a/feed", 0, some "A", none, none, none, some 50, some 200⟩]
    entries := (List.range 45).map fun n =>
      ⟨n + 1, "guid", 1, "t", "text/html", "c", Int.ofNat n, false, none, none⟩
    subscriptions := [⟨1, 1, 1, 1⟩]
    read := []
    saved := [] }

/-! General list lemmas used to reason about joins and de-duplication. -/

theorem nodup_of_length_le_one {α : Type} {l : List α} (h : l.length ≤ 1) : l.Nodup := by
  match l with
  | [] => exact List.nodup_nil
  | [a] => simp
  | a :: b :: t => simp at h

/-- A filter whose predicate pins a key down to a single value selects at
most one element from a list whose keys are distinct. -/
theorem filter_length_le_one {α β : Type} {l : List α} {k : α → β} [DecidableEq β]
    (h : (l.map k).Nodup) {p : α → Bool} {c : β}
    (hp : ∀ x ∈ l, p x = true → k x = c) :
    (l.filter p).length ≤ 1 := by
  have hsub : (l.filter p).Sublist l := List.filter_sublist l
  have hnd : ((l.filter p).map k).Nodup := (hsub.map k).nodup h
  match hm : l.filter p with
  | [] => simp
  | [a] => simp
  | a :: b :: t =>
    exfalso
    have ha : a ∈ l.filter p := by rw [hm]; exact List.mem_cons_self a (b :: t)
    have hb : b ∈ l.filter p := by rw [hm]; exact List.mem_cons_of_mem a (List.mem_cons_self b t)
    have hka : k a = c := hp a (List.mem_of_mem_filter ha) (List.of_mem_filter ha)
    have hkb : k b = c := hp b (List.mem_of_mem_filter hb) (List.of_mem_filter hb)
    rw [hm] at hnd
    simp only [List.map_cons, List.nodup_cons, List.mem_cons, List.mem_map] at hnd
    exact hnd.1 (Or.inl (hka.trans hkb.symm))

theorem flatMap_length_le_one {α β : Type} {l : List α} {g : α → List β}
    (hl : l.length ≤ 1) (hg : ∀ a ∈ l, (g a).length ≤ 1) :
    (l.flatMap g).length ≤ 1 := by
  match l with
  | [] => simp
  | [a] =>
    simpa using hg a (List.mem_singleton_self a)
  | a :: b :: t => simp at hl

/-- Concatenating blocks of at most one element, where the block of `a` can
only hold the key of `a`, yields a duplicate-free list whenever the keys are
duplicate-free. -/
theorem nodup_flatMap_keys {α γ : Type} {l : List α} {g : α → List γ} {k : α → γ}
    (hk : (l.map k).Nodup)
    (hlen : ∀ a ∈ l, (g a).length ≤ 1)
    (hkey : ∀ a ∈ l, ∀ b ∈ g a, b = k a) :
    (l.flatMap g).Nodup := by
  induction l with
  | nil => simp
  | cons a t ih =>
    rw [List.flatMap_cons, List.nodup_append]
    simp only [List.map_cons, List.nodup_cons] at hk
    refine ⟨nodup_of_length_le_one (hlen a (List.mem_cons_self a t)),
      ih hk.2 (fun x hx => hlen x (List.mem_cons_of_mem a hx))
        (fun x hx => hkey x (List.mem_cons_of_mem a hx)), ?_⟩
    intro x hx hx2
    obtain ⟨a2, ha2, hxa2⟩ := List.mem_flatMap.mp hx2
    have h1 : x = k a := hkey a (List.mem_cons_self a t) x hx
    have h2 : x = k a2 := hkey a2 (List.mem_cons_of_mem a ha2) x hxa2
    exact hk.1 (h1 ▸ h2 ▸ List.mem_map_of_mem k ha2)

/-- Mapping an id-like key over a duplicate-free selection out of a table
with duplicate-free keys stays duplicate-free. -/
theorem nodup_map_key_of_subset {α β : Type} {l L : List α} {k : α → β}
    (hl : l.Nodup) (hsub : ∀ x ∈ l, x ∈ L) (hL : (L.map k).Nodup) :
    (l.map k).Nodup := by
  refine hl.map_on ?_
  intro x hx y hy hxy
  exact List.inj_on_of_nodup_map hL (hsub x hx) (hsub y hy) hxy

/-! Membership characterizations of the join rows and the view queries. -/

theorem mem_qRowsFor {db : DB} {e : Entry} {r : QRow} :
    r ∈ qRowsFor db e ↔
      r.entry = e ∧ r.feed ∈ db.feeds ∧ r.feed.id = e.feed ∧
        r.icon ∈ db.icons ∧ r.icon.id = r.feed.icon ∧
        r.sub ∈ db.subscriptions ∧ r.sub.feed = r.feed.id := by
  cases r with
  | mk e1 f1 i1 s1 =>
    simp only [qRowsFor, List.mem_flatMap, List.mem_filter, List.mem_map, beq_iff_eq,
      QRow.mk.injEq]
    constructor
    · rintro ⟨f, ⟨hf, hfid⟩, i, ⟨hi, hiid⟩, s, ⟨hs, hsid⟩, he1, hf1, hi1, hs1⟩
      subst he1; subst hf1; subst hi1; subst hs1
      exact ⟨rfl, hf, hfid, hi, hiid, hs, hsid⟩
    · rintro ⟨he1, hf, hfid, hi, hiid, hs, hsid⟩
      subst he1
      exact ⟨f1, ⟨hf, hfid⟩, i1, ⟨hi, hiid⟩, s1, ⟨hs, hsid⟩, rfl, rfl, rfl, rfl⟩

theorem mem_qRows {db : DB} {r : QRow} :
    r ∈ qRows db ↔
      r.entry ∈ db.entries ∧ r.feed ∈ db.feeds ∧ r.feed.id = r.entry.feed ∧
        r.icon ∈ db.icons ∧ r.icon.id = r.feed.icon ∧
        r.sub ∈ db.subscriptions ∧ r.sub.feed = r.feed.id := by
  simp only [qRows, List.mem_flatMap]
  constructor
  · rintro ⟨e, he, hr⟩
    obtain ⟨h1, rest⟩ := mem_qRowsFor.mp hr
    rw [← h1] at he
    exact ⟨he, h1 ▸ rest⟩
  · rintro ⟨h1, rest⟩
    exact ⟨r.entry, h1, mem_qRowsFor.mpr ⟨rfl, rest⟩⟩

theorem mem_bulkRows {db : DB} {r : BulkRow} :
    r ∈ bulkRows db ↔
      r.entry ∈ db.entries ∧ r.feed ∈ db.feeds ∧ r.feed.id = r.entry.feed ∧
        r.sub ∈ db.subscriptions ∧ r.sub.feed = r.feed.id := by
  cases r with
  | mk e1 f1 s1 =>
    simp only [bulkRows, List.mem_flatMap, List.mem_filter, List.mem_map, beq_iff_eq,
      BulkRow.mk.injEq]
    constructor
    · rintro ⟨e, he, f, ⟨hf, hfid⟩, s, ⟨hs, hsid⟩, he1, hf1, hs1⟩
      subst he1; subst hf1; subst hs1
      exact ⟨he, hf, hfid, hs, hsid⟩
    · rintro ⟨he, hf, hfid, hs, hsid⟩
      exact ⟨e1, he, f1, ⟨hf, hfid⟩, s1, ⟨hs, hsid⟩, rfl, rfl, rfl⟩

/-- Every entry produced by a `_q`-based view is a row of the entries
table. -/
theorem mem_entries_of_mem_filter_map {db : DB} {p : QRow → Bool} {e : Entry}
    (h : e ∈ ((qRows db).filter p).map QRow.entry) : e ∈ db.entries := by
  obtain ⟨r, hr, hre⟩ := List.mem_map.mp h
  exact hre ▸ (mem_qRows.mp (List.mem_of_mem_filter hr)).1

theorem mem_get_unread_iff {db : DB} {user : Nat} {e : Entry} :
    e ∈ get_unread_entries db user ↔
      e ∈ db.entries ∧ reachable db user e = true ∧ is_read db user e.id = false := by
  simp only [get_unread_entries, List.mem_dedup, List.mem_map, List.mem_filter]
  constructor
  · rintro ⟨r, ⟨hrq, hcond⟩, hre⟩
    obtain ⟨he, hf, hfid, hi, hiid, hs, hsf⟩ := mem_qRows.mp hrq
    simp only [Bool.and_eq_true, beq_iff_eq, Bool.not_eq_eq_eq_not, Bool.not_true] at hcond
    subst hre
    refine ⟨he, ?_, hcond.2⟩
    simp only [reachable, List.any_eq_true, Bool.and_eq_true, beq_iff_eq]
    exact ⟨r.feed, hf, hfid, ⟨r.icon, hi, hiid⟩, ⟨r.sub, hs, hsf, hcond.1⟩⟩
  · rintro ⟨he, hreach, hread⟩
    simp only [reachable, List.any_eq_true, Bool.and_eq_true, beq_iff_eq] at hreach
    obtain ⟨f, hf, hfid, ⟨i, hi, hiid⟩, s, hs, hsf, hsu⟩ := hreach
    refine ⟨⟨e, f, i, s⟩, ⟨mem_qRows.mpr ⟨he, hf, hfid, hi, hiid, hs, hsf⟩, ?_⟩, rfl⟩
    simp [hsu, hread]

/-! Effects of the single-entry mark operation on the state components. -/

theorem mark_entry_entries (db : DB) (user eid : Nat) :
    ∀ s, (mark_entry db user eid s).entries = db.entries
  | .read => by simp only [mark_entry]; split <;> rfl
  | .unread => rfl
  | .saved => by simp only [mark_entry]; split <;> rfl
  | .unsaved => rfl

theorem mark_entry_feeds (db : DB) (user eid : Nat) :
    ∀ s, (mark_entry db user eid s).feeds = db.feeds
  | .read => by simp only [mark_entry]; split <;> rfl
  | .unread => rfl
  | .saved => by simp only [mark_entry]; split <;> rfl
  | .unsaved => rfl

theorem mark_entry_icons (db : DB) (user eid : Nat) :
    ∀ s, (mark_entry db user eid s).icons = db.icons
  | .read => by simp only [mark_entry]; split <;> rfl
  | .unread => rfl
  | .saved => by simp only [mark_entry]; split <;> rfl
  | .unsaved => rfl

theorem mark_entry_subscriptions (db : DB) (user eid : Nat) :
    ∀ s, (mark_entry db user eid s).subscriptions = db.subscriptions
  | .read => by simp only [mark_entry]; split <;> rfl
  | .unread => rfl
  | .saved => by simp only [mark_entry]; split <;> rfl
  | .unsaved => rfl

theorem reachable_mark_entry (db : DB) (user eid u2 : Nat) (s : Status) (e : Entry) :
    reachable (mark_entry db user eid s) u2 e = reachable db u2 e := by
  unfold reachable
  rw [mark_entry_feeds, mark_entry_icons, mark_entry_subscriptions]

theorem is_read_mark_read_self (db : DB) (user eid : Nat) :
    is_read (mark_entry db user eid .read) user eid = true := by
  simp only [mark_entry]
  by_cases h : is_read db user eid = true
  · rwa [if_pos h]
  · rw [if_neg h]
    simp [is_read, List.any_append]

theorem is_read_mark_unread_self (db : DB) (user eid : Nat) :
    is_read (mark_entry db user eid .unread) user eid = false := by
  simp only [mark_entry, is_read]
  rw [List.any_eq_false]
  intro r hr
  have hno := List.of_mem_filter hr
  rw [Bool.not_eq_true'] at hno
  simp [hno]

/-! The bulk mark-all-read insert loop. -/

theorem is_read_foldl_iff (l : List Entry) (db : DB) (user eid : Nat) :
    is_read (l.foldl (fun d e =>
        if is_read d user e.id then d
        else { d with read := d.read ++ [⟨user, e.id⟩] }) db) user eid = true ↔
      is_read db user eid = true ∨ eid ∈ l.map Entry.id := by
  induction l generalizing db with
  | nil => simp
  | cons a t ih =>
    rw [List.foldl_cons, ih]
    have hstep : is_read (if is_read db user a.id then db
        else { db with read := db.read ++ [⟨user, a.id⟩] }) user eid = true ↔
        (is_read db user eid = true ∨ eid = a.id) := by
      split
      · constructor
        · exact Or.inl
        · rintro (h1 | h2)
          · exact h1
          · rwa [h2]
      · have hins : is_read { db with read := db.read ++ [⟨user, a.id⟩] } user eid =
            (is_read db user eid || (a.id == eid)) := by
          simp [is_read, List.any_append]
        rw [hins]
        simp only [Bool.or_eq_true, beq_iff_eq]
        constructor
        · rintro (h | h)
          · exact Or.inl h
          · exact Or.inr h.symm
        · rintro (h | h)
          · exact Or.inl h
          · exact Or.inr h.symm
    rw [hstep, List.map_cons, List.mem_cons]
    tauto

theorem is_read_markAllRead_iff (db : DB) (user : Nat) (before : Int) (eid : Nat) :
    is_read (markAllRead db user before) user eid = true ↔
      is_read db user eid = true ∨ eid ∈ (bulkCandidates db user before).map Entry.id :=
  is_read_foldl_iff (bulkCandidates db user before) db user eid

theorem mem_bulkCandidates_ids_iff {db : DB} {user : Nat} {before : Int} {eid : Nat} :
    eid ∈ (bulkCandidates db user before).map Entry.id ↔
      isBulkCandidate db user before eid := by
  simp only [bulkCandidates, List.map_map, List.mem_map, List.mem_filter,
    Function.comp_apply]
  constructor
  · rintro ⟨r, ⟨hr, hcond⟩, hre⟩
    obtain ⟨he, hf, hfid, hs, hsf⟩ := mem_bulkRows.mp hr
    simp only [Bool.and_eq_true, beq_iff_eq, Bool.not_eq_eq_eq_not, Bool.not_true] at hcond
    exact ⟨r.entry, he, hre, r.feed, hf, hfid,
      ⟨r.sub, hs, hsf, hcond.1.1⟩, hre ▸ hcond.1.2, hcond.2⟩
  · rintro ⟨e, he, heid, f, hf, hfid, ⟨s, hs, hsf, hsu⟩, hread, hchk⟩
    refine ⟨⟨e, f, s⟩, ⟨mem_bulkRows.mpr ⟨he, hf, hfid, hs, hsf⟩, ?_⟩, heid⟩
    simp [hsu, heid ▸ hread, hchk]

/-! Duplicate-freeness of the view queries. -/

/-- Under the unique indexes, a single entry contributes at most one join
row with a given `(user, group)` pair on the subscription leg: its feed row
is unique, the icon row of the feed is unique, and the `(user, group, feed)`
index pins the subscription row. -/
theorem qRowsFor_group_filter_length_le_one {db : DB} (hwf : db.WF) (e : Entry)
    (user gid : Nat) :
    ((qRowsFor db e).filter fun r => r.sub.user == user && r.sub.group == gid).length ≤ 1 := by
  obtain ⟨hE, hF, hI, hS⟩ := hwf
  unfold qRowsFor
  rw [List.filter_flatMap]
  apply flatMap_length_le_one
  · exact filter_length_le_one hF (fun f _ hpf => beq_iff_eq.mp hpf)
  · intro f hf
    rw [List.filter_flatMap]
    apply flatMap_length_le_one
    · exact filter_length_le_one hI (fun i _ hpi => beq_iff_eq.mp hpi)
    · intro i hi
      rw [List.filter_map, List.length_map]
      have hnd : ((db.subscriptions.filter fun s => s.feed == f.id).map
          fun s => (s.user, s.group, s.feed)).Nodup :=
        ((List.filter_sublist _).map _).nodup hS
      apply filter_length_le_one hnd (c := (user, gid, f.id))
      intro s hsmem hps
      have hsf : s.feed = f.id := beq_iff_eq.mp (List.mem_filter.mp hsmem).2
      simp only [Function.comp_apply, Bool.and_eq_true, beq_iff_eq] at hps
      rw [hps.1, hps.2, hsf]

theorem get_group_entries_ids_nodup {db : DB} (hwf : db.WF) (user : Nat) (g : Group) :
    ((get_group_entries db user g).map Entry.id).Nodup := by
  unfold get_group_entries qRows
  rw [List.map_map, List.filter_flatMap, List.map_flatMap]
  apply nodup_flatMap_keys (k := Entry.id) hwf.1
  · intro e _
    rw [List.length_map]
    exact qRowsFor_group_filter_length_le_one hwf e user g.id
  · intro e _ b hb
    simp only [List.mem_map, Function.comp_apply] at hb
    obtain ⟨r, hr, hrb⟩ := hb
    have := (mem_qRowsFor.mp (List.mem_of_mem_filter hr)).1
    rw [← hrb, this]

/-- The `.distinct()` views stay duplicate-free on entry ids because a
deduplicated selection out of a table with duplicate-free primary keys
cannot repeat an id. -/
theorem dedup_view_ids_nodup {db : DB} (hE : (db.entries.map Entry.id).Nodup)
    (p : QRow → Bool) :
    (((((qRows db).filter p).map QRow.entry).dedup).map Entry.id).Nodup :=
  nodup_map_key_of_subset (List.nodup_dedup _)
    (fun _ hx => mem_entries_of_mem_filter_map (List.mem_dedup.mp hx)) hE

/-- Every view the frontend can compose returns each entry id at most
once. -/
theorem make_view_ok_ids_nodup {db : DB} {user : Nat} {filt : Filter}
    {q : List Entry} {c : Nat} (hwf : db.WF)
    (h : make_view_variables db user filt = .ok (q, c)) :
    (q.map Entry.id).Nodup := by
  cases filt with
  | saved =>
    simp only [make_view_variables, Except.ok.injEq, Prod.mk.injEq] at h
    rw [← h.1]
    exact dedup_view_ids_nodup hwf.1 _
  | group gid =>
    simp only [make_view_variables] at h
    cases hg : getGroup db gid with
    | none => rw [hg] at h; exact absurd h (by simp)
    | some g =>
      rw [hg] at h
      simp only [Except.ok.injEq, Prod.mk.injEq] at h
      rw [← h.1]
      exact get_group_entries_ids_nodup hwf user g
  | feed fid =>
    simp only [make_view_variables] at h
    cases hg : getFeed db fid with
    | none => rw [hg] at h; exact absurd h (by simp)
    | some f =>
      rw [hg] at h
      simp only [Except.ok.injEq, Prod.mk.injEq] at h
      rw [← h.1]
      exact dedup_view_ids_nodup hwf.1 _
  | all =>
    simp only [make_view_variables, Except.ok.injEq, Prod.mk.injEq] at h
    rw [← h.1]
    exact dedup_view_ids_nodup hwf.1 _
  | unread =>
    simp only [make_view_variables, Except.ok.injEq, Prod.mk.injEq] at h
    rw [← h.1]
    exact dedup_view_ids_nodup hwf.1 _

theorem insertByUpdatedDesc_perm (e : Entry) (l : List Entry) :
    (insertByUpdatedDesc e l).Perm (e :: l) := by
  induction l with
  | nil => exact List.Perm.refl _
  | cons x xs ih =>
    by_cases h : x.last_updated_on ≤ e.last_updated_on
    · simp [insertByUpdatedDesc, h]
    · simp only [insertByUpdatedDesc, if_neg h]
      exact (ih.cons x).trans (List.Perm.swap e x xs)

theorem orderByUpdatedDesc_perm (l : List Entry) : (orderByUpdatedDesc l).Perm l := by
  induction l with
  | nil => exact List.Perm.refl _
  | cons x xs ih => exact (insertByUpdatedDesc_perm x (orderByUpdatedDesc xs)).trans (ih.cons x)

/-! Claim theorems. -/

/-- C3: the single-entry mark operation is idempotent for every status in
read, unread, saved, unsaved: applying the same status twice leaves the
Read and Saved relations exactly as one application does, the second
application being an absorbed no-op rather than an error (the operation is
a total function on the state). -/
theorem mark_entry_idempotent (db : DB) (user eid : Nat) (s : Status) :
    mark_entry (mark_entry db user eid s) user eid s = mark_entry db user eid s := by
  cases s with
  | read =>
    by_cases h : is_read db user eid = true
    · simp [mark_entry, h]
    · simp only [mark_entry, if_neg h]
      have h2 : is_read { db with read := db.read ++ [⟨user, eid⟩] } user eid = true := by
        simp [is_read, List.any_append]
      rw [if_pos h2]
  | unread =>
    simp only [mark_entry]
    congr 1
    simp [List.filter_filter]
  | saved =>
    by_cases h : is_saved db user eid = true
    · simp [mark_entry, h]
    · simp only [mark_entry, if_neg h]
      have h2 : is_saved { db with saved := db.saved ++ [⟨user, eid⟩] } user eid = true := by
        simp [is_saved, List.any_append]
      rw [if_pos h2]
  | unsaved =>
    simp only [mark_entry]
    congr 1
    simp [List.filter_filter]

/-- C4: invoking the entry-list operation with a Group filter whose id
matches no group row fails with NotFound. -/
theorem group_view_missing_group_not_found (db : DB) (user gid offset : Nat)
    (h : ∀ g ∈ db.groups, g.id ≠ gid) :
    entry_list db user (.group gid) offset = .error .notFound := by
  have hg : getGroup db gid = none := by
    rw [getGroup, List.find?_eq_none]
    intro g hgm
    simp [h g hgm]
  simp [entry_list, make_view_variables, hg]

/-- C4 witness: group id 5 exists in no row of the example database, and the
entry-list operation reports NotFound. -/
theorem group_view_missing_group_not_found_witness :
    entry_list dbExample 1 (.group 5) 0 = .error .notFound :=
  group_view_missing_group_not_found dbExample 1 5 0 (by decide)

/-- C7: the bulk mark-all-read operation fails with BadRequest when the
cutoff parameter is missing or not parseable as an integer timestamp, and
the state it returns is the unchanged input state (no Read row is
created). -/
theorem bulk_mark_bad_request (db : DB) (user : Nat) (beforeParam : Option String)
    (h : beforeParam = none ∨ ∃ s, beforeParam = some s ∧ s.toInt? = none) :
    entry_list_mark_post db user beforeParam = (db, some .badRequest) := by
  rcases h with h | ⟨s, hs, hti⟩
  · rw [h]
    rfl
  · rw [hs]
    simp [entry_list_mark_post, hti]

/-- C7 witness: a request without the cutoff parameter yields BadRequest and
leaves the example database unchanged. -/
theorem bulk_mark_bad_request_witness :
    entry_list_mark_post dbExample 1 none = (dbExample, some .badRequest) :=
  bulk_mark_bad_request dbExample 1 none (Or.inl rfl)

/-- C10: the GET handler for an existing single entry is not read-only: it
marks the entry read for the requesting user before rendering, inserting
the (user, entry) pair into Read when absent and leaving the state
untouched when the pair is already present. -/
theorem entry_view_marks_read (db : DB) (user eid : Nat) (e : Entry)
    (hget : getEntry db eid = some e) :
    entry_view db user eid = (mark_entry db user eid .read, none) ∧
      is_read (entry_view db user eid).1 user eid = true ∧
      (is_read db user eid = true → (entry_view db user eid).1 = db) ∧
      (is_read db user eid = false →
        (entry_view db user eid).1.read = db.read ++ [⟨user, eid⟩]) := by
  have hget2 : db.entries.find? (fun x => x.id == eid) = some e := hget
  have h3 : (e.id == eid) = true :=
    List.find?_some (p := fun x : Entry => x.id == eid) hget2
  have hfid : e.id = eid := by simpa using h3
  have hview : entry_view db user eid = (mark_entry db user eid .read, none) := by
    unfold entry_view
    rw [hget]
    show (mark_entry db user e.id .read, none) = _
    rw [hfid]
  refine ⟨hview, ?_, ?_, ?_⟩
  · rw [hview]
    exact is_read_mark_read_self db user eid
  · intro h
    rw [hview]
    simp [mark_entry, h]
  · intro h
    rw [hview]
    simp only [mark_entry, h, Bool.false_eq_true, if_false]

/-- C10 witness: viewing unread entry 1 of the example database inserts the
pair (1, 1) into Read; entry 1 was unread before the GET. -/
theorem entry_view_marks_read_witness :
    entry_view dbExample 1 1 = (mark_entry dbExample 1 1 .read, none) ∧
      is_read (entry_view dbExample 1 1).1 1 1 = true ∧
      (is_read dbExample 1 1 = true → (entry_view dbExample 1 1).1 = dbExample) ∧
      (is_read dbExample 1 1 = false →
        (entry_view dbExample 1 1).1.read = dbExample.read ++ [⟨1, 1⟩]) :=
  entry_view_marks_read dbExample 1 1 ⟨1, "guid1", 1, "t1", "text/html", "c1", 10, false, none, none⟩
    (by decide)

/-- C6: for an existing feed the user holds no subscription to, the Feed
view returns the empty result set rather than an error: the query filters
on both the user and feed columns of the subscription. -/
theorem feed_view_unsubscribed_empty (db : DB) (user fid : Nat) (f : Feed)
    (hget : getFeed db fid = some f)
    (hns : ∀ s ∈ db.subscriptions, s.user = user → s.feed ≠ fid) :
    get_feed_entries db user f = [] ∧
      entry_list db user (.feed fid) 0 = .ok ([], 0, ENTRIES_PER_PAGE) := by
  have hget2 : db.feeds.find? (fun g => g.id == fid) = some f := hget
  have h3 : (f.id == fid) = true :=
    List.find?_some (p := fun g : Feed => g.id == fid) hget2
  have hfid : f.id = fid := by simpa using h3
  have hempty : get_feed_entries db user f = [] := by
    unfold get_feed_entries
    have hfil : (qRows db).filter
        (fun r => r.sub.user == user && r.sub.feed == f.id) = [] := by
      rw [List.filter_eq_nil_iff]
      intro r hr
      simp only [Bool.and_eq_true, beq_iff_eq, not_and]
      intro hsu hsf
      exact hns r.sub (mem_qRows.mp hr).2.2.2.2.2.1 hsu (hfid ▸ hsf)
    rw [hfil]
    rfl
  refine ⟨hempty, ?_⟩
  simp [entry_list, make_view_variables, hget, hempty, countDistinctIds,
    orderByUpdatedDesc, ENTRIES_PER_PAGE]

/-- C6 witness: feed 3 exists in the example database and user 1 is not
subscribed to it; the Feed(3) view succeeds with an empty page. -/
theorem feed_view_unsubscribed_empty_witness :
    get_feed_entries dbExample 1
        ⟨3, true, 1, "http://c/feed", 0, some "C", none, none, none, some 80, some 200⟩ = [] ∧
      entry_list dbExample 1 (.feed 3) 0 = .ok ([], 0, ENTRIES_PER_PAGE) :=
  feed_view_unsubscribed_empty dbExample 1 3
    ⟨3, true, 1, "http://c/feed", 0, some "C", none, none, none, some 80, some 200⟩
    (by decide) (by decide)

/-- C5: the Unread view returns exactly the entries reachable through the
subscriptions of the user that are absent from the Read set of that user; hence
marking a reachable entry read removes its id from the Unread view, and
marking it unread afterwards makes the view include it again. -/
theorem unread_view_correct (db : DB) (user : Nat) (e : Entry)
    (he : e ∈ db.entries) (hr : reachable db user e = true) :
    (∀ e2, e2 ∈ get_unread_entries db user ↔
        e2 ∈ db.entries ∧ reachable db user e2 = true ∧ is_read db user e2.id = false) ∧
      (∀ x ∈ get_unread_entries (mark_entry db user e.id .read) user, x.id ≠ e.id) ∧
      (∃ x ∈ get_unread_entries
          (mark_entry (mark_entry db user e.id .read) user e.id .unread) user,
        x.id = e.id) := by
  refine ⟨fun e2 => mem_get_unread_iff, ?_, ?_⟩
  · intro x hx hxe
    have h1 := (mem_get_unread_iff.mp hx).2.2
    rw [hxe, is_read_mark_read_self] at h1
    simp at h1
  · refine ⟨e, mem_get_unread_iff.mpr ⟨?_, ?_, ?_⟩, rfl⟩
    · rw [mark_entry_entries, mark_entry_entries]
      exact he
    · rw [reachable_mark_entry, reachable_mark_entry]
      exact hr
    · exact is_read_mark_unread_self _ user e.id

/-- C5 witness: entry 1 of the example database is reachable for user 1;
the Unread view characterization holds there, marking entry 1 read expels
it from the view and marking it unread brings it back. -/
theorem unread_view_correct_witness :
    (∀ e2, e2 ∈ get_unread_entries dbExample 1 ↔
        e2 ∈ dbExample.entries ∧ reachable dbExample 1 e2 = true ∧
          is_read dbExample 1 e2.id = false) ∧
      (∀ x ∈ get_unread_entries (mark_entry dbExample 1 entryOne.id .read) 1,
        x.id ≠ entryOne.id) ∧
      (∃ x ∈ get_unread_entries
          (mark_entry (mark_entry dbExample 1 entryOne.id .read) 1 entryOne.id .unread) 1,
        x.id = entryOne.id) :=
  unread_view_correct dbExample 1 entryOne (by decide) (by decide)

/-- C9: the bulk mark-all-read operation never touches entries of a feed
whose `last_checked_on` is NULL: for every cutoff the NULL comparison fails,
the entries of the feed are no candidates, and their Read membership for the
calling user is unchanged. -/
theorem bulk_mark_skips_never_checked (db : DB) (user : Nat) (cutoff : Int)
    (e : Entry) (f : Feed)
    (hE : (db.entries.map Entry.id).Nodup) (hF : (db.feeds.map Feed.id).Nodup)
    (he : e ∈ db.entries) (hf : f ∈ db.feeds) (hef : f.id = e.feed)
    (hnone : f.last_checked_on = none) :
    is_read (markAllRead db user cutoff) user e.id = is_read db user e.id := by
  have hnc : ¬ isBulkCandidate db user cutoff e.id := by
    rintro ⟨e2, he2, heid, f2, hf2, hfid2, hsub2, hrd2, hchk⟩
    have he2e : e2 = e := List.inj_on_of_nodup_map hE he2 he heid
    subst he2e
    have hff : f2 = f := List.inj_on_of_nodup_map hF hf2 hf (hfid2.trans hef.symm)
    subst hff
    simp [checked_before, hnone] at hchk
  cases hb : is_read db user e.id with
  | true => exact (is_read_markAllRead_iff db user cutoff e.id).mpr (Or.inl hb)
  | false =>
    have hne : is_read (markAllRead db user cutoff) user e.id ≠ true := by
      intro hafter
      rcases (is_read_markAllRead_iff db user cutoff e.id).mp hafter with h | h
      · rw [hb] at h
        simp at h
      · exact hnc (mem_bulkCandidates_ids_iff.mp h)
    simp only [ne_eq, Bool.not_eq_true] at hne
    exact hne

/-- C9 witness: entry 3 lives on feed 2, which was never checked; a bulk
mark at cutoff 100 leaves its Read membership for user 1 unchanged. -/
theorem bulk_mark_skips_never_checked_witness :
    is_read (markAllRead dbExample 1 100) 1 entryThree.id = is_read dbExample 1 entryThree.id :=
  bulk_mark_skips_never_checked dbExample 1 100 entryThree feedTwo
    (by decide) (by decide) (by decide) (by decide) (by decide) (by decide)

/-- C1: the bulk mark-all-read operation marks exactly the candidate set —
entries reachable through the subscriptions of the user, not yet read, on a feed
last checked strictly before the cutoff; entries of a feed checked at or
after the cutoff keep their Read membership, every entry of a subscribed
feed checked before the cutoff ends up read, and entries already read stay
read with the duplicate-insert conflicts absorbed. -/
theorem bulk_mark_all_read_correct (db : DB) (user : Nat) (cutoff : Int)
    (hE : (db.entries.map Entry.id).Nodup) (hF : (db.feeds.map Feed.id).Nodup) :
    (∀ eid, is_read (markAllRead db user cutoff) user eid = true ↔
        (is_read db user eid = true ∨ isBulkCandidate db user cutoff eid)) ∧
      (∀ f ∈ db.feeds, ∀ t : Int, f.last_checked_on = some t → cutoff ≤ t →
        ∀ e ∈ db.entries, e.feed = f.id →
          is_read (markAllRead db user cutoff) user e.id = is_read db user e.id) ∧
      (∀ f ∈ db.feeds, ∀ t : Int, f.last_checked_on = some t → t < cutoff →
        ∀ e ∈ db.entries, e.feed = f.id →
          (∃ s ∈ db.subscriptions, s.user = user ∧ s.feed = f.id) →
          is_read (markAllRead db user cutoff) user e.id = true) ∧
      (∀ eid, is_read db user eid = true →
        is_read (markAllRead db user cutoff) user eid = true) := by
  have hmain : ∀ eid, is_read (markAllRead db user cutoff) user eid = true ↔
      (is_read db user eid = true ∨ isBulkCandidate db user cutoff eid) := by
    intro eid
    rw [is_read_markAllRead_iff]
    exact or_congr Iff.rfl mem_bulkCandidates_ids_iff
  refine ⟨hmain, ?_, ?_, fun eid hb => (hmain eid).mpr (Or.inl hb)⟩
  · intro f hf t ht hct e he hef
    have hnc : ¬ isBulkCandidate db user cutoff e.id := by
      rintro ⟨e2, he2, heid, f2, hf2, hfid2, hsub2, hrd2, hchk⟩
      have he2e : e2 = e := List.inj_on_of_nodup_map hE he2 he heid
      subst he2e
      have hff : f2 = f := List.inj_on_of_nodup_map hF hf2 hf (by rw [hfid2, hef])
      subst hff
      simp only [checked_before, ht, decide_eq_true_eq] at hchk
      exact absurd hchk (not_lt.mpr hct)
    cases hb : is_read db user e.id with
    | true => exact (hmain e.id).mpr (Or.inl hb)
    | false =>
      have hne : is_read (markAllRead db user cutoff) user e.id ≠ true := by
        intro hafter
        rcases (hmain e.id).mp hafter with h | h
        · rw [hb] at h
          simp at h
        · exact hnc h
      simp only [ne_eq, Bool.not_eq_true] at hne
      exact hne
  · intro f hf t ht hlt e he hef hsub
    cases hb : is_read db user e.id with
    | true => exact (hmain e.id).mpr (Or.inl hb)
    | false =>
      apply (hmain e.id).mpr
      apply Or.inr
      obtain ⟨s, hs, hsu, hsf⟩ := hsub
      exact ⟨e, he, rfl, f, hf, hef.symm, ⟨s, hs, hsf, hsu⟩, hb,
        by simp [checked_before, ht, hlt]⟩

/-- C1 witness: in the example database, a bulk mark by user 1 at cutoff 100
satisfies the candidate characterization, skips feeds checked at 200 ≥ 100,
marks every unread entry of feeds checked before 100, and keeps already-read
entries read. -/
theorem bulk_mark_all_read_correct_witness :
    (∀ eid, is_read (markAllRead dbExample 1 100) 1 eid = true ↔
        (is_read dbExample 1 eid = true ∨ isBulkCandidate dbExample 1 100 eid)) ∧
      (∀ f ∈ dbExample.feeds, ∀ t : Int, f.last_checked_on = some t → 100 ≤ t →
        ∀ e ∈ dbExample.entries, e.feed = f.id →
          is_read (markAllRead dbExample 1 100) 1 e.id = is_read dbExample 1 e.id) ∧
      (∀ f ∈ dbExample.feeds, ∀ t : Int, f.last_checked_on = some t → t < 100 →
        ∀ e ∈ dbExample.entries, e.feed = f.id →
          (∃ s ∈ dbExample.subscriptions, s.user = 1 ∧ s.feed = f.id) →
          is_read (markAllRead dbExample 1 100) 1 e.id = true) ∧
      (∀ eid, is_read dbExample 1 eid = true →
        is_read (markAllRead dbExample 1 100) 1 eid = true) :=
  bulk_mark_all_read_correct dbExample 1 100 (by decide) (by decide)

/-- C2: every view query the frontend composes — Unread, Saved, All,
Group(g) and Feed(f) — returns each entry id at most once, even though the
Group view applies no distinct step: the unique `(user, group, feed)`
subscription index already prevents fan-out inside one group. -/
theorem view_queries_duplicate_free (db : DB) (user : Nat) (filt : Filter)
    (q : List Entry) (c : Nat) (hwf : db.WF)
    (h : make_view_variables db user filt = .ok (q, c)) :
    (q.map Entry.id).Nodup :=
  make_view_ok_ids_nodup hwf h

/-- C2 witness: user 1 reaches feed 1 through two distinct groups in the
example database, yet the Group(1) view — the one without a distinct step —
lists each entry id exactly once. -/
theorem view_queries_duplicate_free_witness :
    ((get_group_entries dbExample 1 ⟨1, "news"⟩).map Entry.id).Nodup :=
  view_queries_duplicate_free dbExample 1 (.group 1)
    (get_group_entries dbExample 1 ⟨1, "news"⟩)
    ((get_group_entries dbExample 1 ⟨1, "news"⟩).length) (by decide) rfl

/-- C8: over a view with 45 matches and no interleaved writes, pages of
size 30 at offsets 0 and 30 return 30 and then 15 entries with pairwise
distinct ids, jointly a permutation of the full match set (no overlap, no
omission), and each call reports next offset = offset + page size. -/
theorem pagination_two_pages_cover (db : DB) (user : Nat) (filt : Filter)
    (q : List Entry) (c : Nat) (hwf : db.WF)
    (h : make_view_variables db user filt = .ok (q, c)) (hlen : q.length = 45) :
    ∃ p0 p1 : List Entry,
      entry_list db user filt 0 = .ok (p0, c, 30) ∧
        entry_list db user filt 30 = .ok (p1, c, 60) ∧
        p0.length = 30 ∧ p1.length = 15 ∧
        ((p0 ++ p1).map Entry.id).Nodup ∧ (p0 ++ p1).Perm q := by
  have hperm := orderByUpdatedDesc_perm q
  have hslen : (orderByUpdatedDesc q).length = 45 := by rw [hperm.length_eq, hlen]
  have hap : ((orderByUpdatedDesc q).drop 0).take ENTRIES_PER_PAGE ++
      ((orderByUpdatedDesc q).drop 30).take ENTRIES_PER_PAGE = orderByUpdatedDesc q := by
    simp only [ENTRIES_PER_PAGE, List.drop_zero]
    rw [← List.take_add]
    exact List.take_of_length_le (by rw [hslen]; omega)
  refine ⟨((orderByUpdatedDesc q).drop 0).take ENTRIES_PER_PAGE,
    ((orderByUpdatedDesc q).drop 30).take ENTRIES_PER_PAGE, ?_, ?_, ?_, ?_, ?_, ?_⟩
  · unfold entry_list
    rw [h]
    rfl
  · unfold entry_list
    rw [h]
    rfl
  · simp [ENTRIES_PER_PAGE, List.length_take, List.length_drop, hslen]
  · simp [ENTRIES_PER_PAGE, List.length_take, List.length_drop, hslen]
  · rw [hap]
    exact ((hperm.map Entry.id).symm).nodup (make_view_ok_ids_nodup hwf h)
  · rw [hap]
    exact hperm

/-- C8 witness: the Unread view of the 45-entry database has exactly 45
matches; its first two pages of 30 cover all of them with no overlap and
report next offsets 30 and 60. -/
theorem pagination_two_pages_cover_witness :
    ∃ p0 p1 : List Entry,
      entry_list db45 1 .unread 0 =
          .ok (p0, countDistinctIds (get_unread_entries db45 1), 30) ∧
        entry_list db45 1 .unread 30 =
          .ok (p1, countDistinctIds (get_unread_entries db45 1), 60) ∧
        p0.length = 30 ∧ p1.length = 15 ∧
        ((p0 ++ p1).map Entry.id).Nodup ∧ (p0 ++ p1).Perm (get_unread_entries db45 1) :=
  pagination_two_pages_cover db45 1 .unread (get_unread_entries db45 1)
    (countDistinctIds (get_unread_entries db45 1)) (by decide) rfl (by decide)

end Coldsweat
